import Mathlib

/-!
# Verification of the extraterm canvas text-layer renderer

A shallow embedding of `CanvasTextLayer.ts`
(`packages/extraterm-ace-terminal-renderer/src/CanvasTextLayer.ts`):
the rational pixel scaler, the row-visibility resolver, the grid
compositor, the render-surface manager and the mouse-hover logic,
together with theorems checking the specification's claims about them.

Pixel quantities (CSS pixels, device-pixel ratios, row heights) are
JavaScript numbers in the source; they are modelled as rationals `ℚ`,
with `Math.ceil` as `Int.ceil` and `Math.round` as `jsRound` below.
Document/canvas row indices, palette indices, style masks and link
identifiers are natural numbers.
-/

/-- JavaScript's `Math.round`: round half toward positive infinity. -/
def jsRound (q : ℚ) : ℤ := ⌊q + 1/2⌋

/-- Modelled from the spec: the reserved "default background" palette
slot that follows the 256 standard palette indices (§3 Palette; the
fallback palette in the source stores the background colour at
index 256). `extraterm-char-render-canvas` is part of the repository
but its source is not available here. -/
def PALETTE_BG_INDEX : ℕ := 256

/-- Modelled from the spec: the "hyperlink highlight" bit of the style
bitmask (§3 CharacterCellGrid). `extraterm-char-cell-grid` is part of
the repository but its source is not available here; only the bit's
existence matters to the claims, not its numeric position. -/
def STYLE_MASK_HYPERLINK_HIGHLIGHT : ℕ := 2048

/-! ## Rational pixel scaler -/

/-- The `screenLength`/`renderLength` pair returned by
`_computeDevicePixelRatioPair` (source lines 285-304). -/
structure PixelRatioPair where
  screenLength : ℚ
  renderLength : ℚ
deriving DecidableEq

/-- Modelled from the spec (§4.1): `ratioToFraction` from
`RatioToFraction.ts` (part of the repository, not available here)
returns the reduced fraction `p/q` equal to the ratio, as the pair
`[renderMultiple, screenMultiple]`.  A rational's `num`/`den` fields
are stored in lowest terms, so for a positive ratio the reduced
fraction is exactly `(num, den)`. -/
def ratioToFraction (ratio : ℚ) : ℕ × ℕ := (ratio.num.toNat, ratio.den)

/-- Model of `_computeDevicePixelRatioPair(devicePixelRatio, length)`:
if the ratio is 1 both lengths equal `length`; otherwise
`screenLength = Math.ceil(length / screenMultiple) * screenMultiple`
and `renderLength = screenLength / screenMultiple * renderMultiple`. -/
def computeDevicePixelRatioPair (devicePixelRatio : ℚ) (length : ℚ) : PixelRatioPair :=
  if devicePixelRatio = 1 then
    { screenLength := length, renderLength := length }
  else
    let renderMultiple : ℕ := (ratioToFraction devicePixelRatio).1
    let screenMultiple : ℕ := (ratioToFraction devicePixelRatio).2
    let screenLength : ℚ := ((⌈length / (screenMultiple : ℚ)⌉ * (screenMultiple : ℤ) : ℤ) : ℚ)
    let renderLength : ℚ := screenLength / (screenMultiple : ℚ) * (renderMultiple : ℚ)
    { screenLength := screenLength, renderLength := renderLength }

/-- C1: for positive `ratio` and `length`, `_computeDevicePixelRatioPair`
returns `(length, length)` when the ratio is 1; otherwise, with `p/q` the
reduced fraction equal to the ratio as returned by `ratioToFraction`, the
`screenLength` is the smallest multiple of `q` that is at least `length`,
`renderLength = screenLength / q * p`, and `renderLength / screenLength`
equals the ratio exactly. -/
theorem c1_computeDevicePixelRatioPair_correct (ratio length : ℚ)
    (hr : 0 < ratio) (hl : 0 < length) :
    (ratio = 1 → computeDevicePixelRatioPair ratio length =
      { screenLength := length, renderLength := length }) ∧
    (ratio ≠ 1 →
      (∃ m : ℤ, (computeDevicePixelRatioPair ratio length).screenLength
          = (m : ℚ) * ((ratioToFraction ratio).2 : ℚ)) ∧
      length ≤ (computeDevicePixelRatioPair ratio length).screenLength ∧
      (∀ m : ℤ, length ≤ (m : ℚ) * ((ratioToFraction ratio).2 : ℚ) →
        (computeDevicePixelRatioPair ratio length).screenLength
          ≤ (m : ℚ) * ((ratioToFraction ratio).2 : ℚ)) ∧
      (computeDevicePixelRatioPair ratio length).renderLength
        = (computeDevicePixelRatioPair ratio length).screenLength
            / ((ratioToFraction ratio).2 : ℚ) * ((ratioToFraction ratio).1 : ℚ) ∧
      (computeDevicePixelRatioPair ratio length).renderLength
        / (computeDevicePixelRatioPair ratio length).screenLength = ratio) := by
  constructor
  · intro h1
    simp [computeDevicePixelRatioPair, h1]
  · intro h1
    have hq : (0:ℚ) < ((ratioToFraction ratio).2 : ℚ) := by
      have := ratio.pos
      simp only [ratioToFraction]
      exact_mod_cast this
    have hqne : ((ratioToFraction ratio).2 : ℚ) ≠ 0 := ne_of_gt hq
    have hscreen : (computeDevicePixelRatioPair ratio length).screenLength
        = ((⌈length / ((ratioToFraction ratio).2 : ℚ)⌉ : ℚ))
            * ((ratioToFraction ratio).2 : ℚ) := by
      simp only [computeDevicePixelRatioPair, if_neg h1]
      push_cast
      ring
    have hrender : (computeDevicePixelRatioPair ratio length).renderLength
        = (computeDevicePixelRatioPair ratio length).screenLength
            / ((ratioToFraction ratio).2 : ℚ) * ((ratioToFraction ratio).1 : ℚ) := by
      simp only [computeDevicePixelRatioPair, if_neg h1]
    have hge : length ≤ (computeDevicePixelRatioPair ratio length).screenLength := by
      rw [hscreen]
      exact (div_le_iff₀ hq).mp (Int.le_ceil _)
    refine ⟨⟨⌈length / ((ratioToFraction ratio).2 : ℚ)⌉, hscreen⟩, hge, ?_, hrender, ?_⟩
    · intro m hm
      rw [hscreen]
      have h2 : length / ((ratioToFraction ratio).2 : ℚ) ≤ (m : ℚ) :=
        (div_le_iff₀ hq).mpr hm
      have h3 : ⌈length / ((ratioToFraction ratio).2 : ℚ)⌉ ≤ m := Int.ceil_le.mpr h2
      exact mul_le_mul_of_nonneg_right (by exact_mod_cast h3) hq.le
    · have hsne : (computeDevicePixelRatioPair ratio length).screenLength ≠ 0 :=
        ne_of_gt (lt_of_lt_of_le hl hge)
      have hnum : (0:ℤ) ≤ ratio.num := (Rat.num_pos.mpr hr).le
      have hpq : ((ratioToFraction ratio).1 : ℚ) / ((ratioToFraction ratio).2 : ℚ)
          = ratio := by
        have hcast : (((ratioToFraction ratio).1 : ℕ) : ℚ) = (ratio.num : ℚ) := by
          simp only [ratioToFraction]
          exact_mod_cast congrArg (Int.cast : ℤ → ℚ) (Int.toNat_of_nonneg hnum)
        rw [hcast]
        simp only [ratioToFraction]
        exact Rat.num_div_den ratio
      have hp : ((ratioToFraction ratio).1 : ℚ)
          = ratio * ((ratioToFraction ratio).2 : ℚ) := by
        field_simp at hpq
        exact hpq
      rw [hrender, hp]
      field_simp
      ring

/-- Witness for C1: at ratio `3/2` and length `7` the returned pair
realises the ratio exactly. -/
theorem c1_witness :
    (computeDevicePixelRatioPair (3/2) 7).renderLength
      / (computeDevicePixelRatioPair (3/2) 7).screenLength = 3/2 :=
  ((c1_computeDevicePixelRatioPair_correct (3/2) 7 (by norm_num) (by norm_num)).2
    (by norm_num)).2.2.2.2

/-! ## Character cells, terminal lines and the edit session -/

/-- One character cell of a `CharCellGrid`: codepoint, colour-palette
indices, style bitmask and link identifier (spec §3). -/
structure Cell where
  codePoint : ℕ
  fgClutIndex : ℕ
  bgClutIndex : ℕ
  style : ℕ
  linkID : ℕ
deriving DecidableEq

/-- Modelled from the spec (§4.4): the blank cell `clearCell` writes —
`extraterm-char-cell-grid` is part of the repository but its source is
not available here.  Only the fact that it is one fixed cleared value
matters to the claims. -/
def clearedCell : Cell :=
  { codePoint := 32, fgClutIndex := 0, bgClutIndex := 0, style := 0, linkID := 0 }

/-- The destination grid of the compositor: a 2-D grid of cells,
addressed as `cells x y` with `x` the column and `y` the canvas row. -/
structure CharCellGrid where
  width : ℕ
  height : ℕ
  cells : ℕ → ℕ → Cell

/-- Write one cell of the grid. -/
def CharCellGrid.setCell (g : CharCellGrid) (x y : ℕ) (c : Cell) : CharCellGrid :=
  { g with cells := fun a b => if a = x ∧ b = y then c else g.cells a b }

/-- Modelled from the spec (§4.4): `clearCell(x, y)` resets the cell to
blank. -/
def CharCellGrid.clearCell (g : CharCellGrid) (x y : ℕ) : CharCellGrid :=
  g.setCell x y clearedCell

/-- Modelled from the spec (§4.4): `setBgClutIndex(x, y, idx)` replaces
the cell's background palette index. -/
def CharCellGrid.setBgClutIndex (g : CharCellGrid) (x y idx : ℕ) : CharCellGrid :=
  g.setCell x y { g.cells x y with bgClutIndex := idx }

/-- Model of `getStyle(x, y)`. -/
def CharCellGrid.getStyle (g : CharCellGrid) (x y : ℕ) : ℕ := (g.cells x y).style

/-- Modelled from the spec (§4.4): `setStyle(x, y, style)` replaces the
cell's style bitmask. -/
def CharCellGrid.setStyle (g : CharCellGrid) (x y style : ℕ) : CharCellGrid :=
  g.setCell x y { g.cells x y with style := style }

/-- Model of `getLinkID(x, y)`. -/
def CharCellGrid.getLinkID (g : CharCellGrid) (x y : ℕ) : ℕ := (g.cells x y).linkID

/-- A document row's cell data plus its URL/link-identifier mapping
(spec §3 TerminalLine).  The line is a one-row grid; its cell at column
`x` is `cells x`. -/
structure TerminalLine where
  width : ℕ
  cells : ℕ → Cell
  linkIDOfURL : String → ℕ
  linkURLOfID : ℕ → String

/-- Model of `terminalLine.getLinkIDByURL(url)`. -/
def TerminalLine.getLinkIDByURL (tl : TerminalLine) (url : String) : ℕ :=
  tl.linkIDOfURL url

/-- Model of `terminalLine.getLinkURLByID(id)`. -/
def TerminalLine.getLinkURLByID (tl : TerminalLine) (linkID : ℕ) : String :=
  tl.linkURLOfID linkID

/-- Model of `line.getLinkID(column, 0)`: the line is a one-row grid, so the row
argument is ignored. -/
def TerminalLine.getLinkID (tl : TerminalLine) (x _y : ℕ) : ℕ := (tl.cells x).linkID

/-- Modelled from the spec (§4.4): `pasteGrid(terminalLine, px, py)`
copies the line's cells cell-for-cell into the destination row `py`
starting at column `px`, clipped to the destination grid's width.  The
source always calls it with `px = 0`. -/
def CharCellGrid.pasteGrid (g : CharCellGrid) (tl : TerminalLine) (px py : ℕ) :
    CharCellGrid :=
  { g with cells := fun a b =>
      if b = py ∧ px ≤ a ∧ a < px + tl.width ∧ a < g.width then tl.cells (a - px)
      else g.cells a b }

/-- A collapsed (folded) contiguous document-row range (spec §3
FoldLine); `foldLine.start.row` and `foldLine.end.row` in the source. -/
structure FoldLine where
  startRow : ℕ
  endRow : ℕ
deriving DecidableEq

/-- The external edit-session collaborator (spec §6): terminal lines and
plain-text lines by document row, and the fold lines, kept sorted by
position as the document model maintains them. -/
structure EditSession where
  terminalLines : ℕ → Option TerminalLine
  plainLines : ℕ → String
  folds : List FoldLine

/-- Model of `session.getTerminalLine(row)`. -/
def EditSession.getTerminalLine (es : EditSession) (row : ℕ) : Option TerminalLine :=
  es.terminalLines row

/-- Model of `session.getLine(row)`. -/
def EditSession.getLine (es : EditSession) (row : ℕ) : String := es.plainLines row

/-- Modelled from the spec (§6, §4.3): `getNextFoldLine(row, afterFold?)`
returns the first fold line at or after the given position — the first
fold whose end row is ≥ `row` — together with the folds that follow it
(the state the next `getNextFoldLine(row, foldLine)` call searches).
`@extraterm/ace-ts` is an external collaborator whose source is not
available here. -/
def getNextFoldLine (row : ℕ) : List FoldLine → Option (FoldLine × List FoldLine)
  | [] => none
  | f :: rest => if f.endRow < row then getNextFoldLine row rest else some (f, rest)

/-- Size measure of the resolver's fold cursor, for termination. -/
def foldStateSize : Option (FoldLine × List FoldLine) → ℕ
  | none => 0
  | some (_, rest) => rest.length + 1

theorem foldStateSize_getNextFoldLine_le (row : ℕ) (folds : List FoldLine) :
    foldStateSize (getNextFoldLine row folds) ≤ folds.length := by
  induction folds with
  | nil => simp [getNextFoldLine, foldStateSize]
  | cons f rest ih =>
    simp only [getNextFoldLine]
    split
    · exact le_trans ih (by simp)
    · simp [foldStateSize]

/-- The `while (true)` loop of `_getVisibleRows` (source lines 363-379).
Each iteration first jumps over the current fold when `row` has passed
its start (`row = foldLine.end.row + 1`, advancing the fold cursor),
then appends `row`, then stops when `row > lastRow`, else increments
`row`.  A `none` cursor is the source's `foldStart = Infinity`. -/
def visibleRowsLoop (lastRow row : ℕ) (fs : Option (FoldLine × List FoldLine)) :
    List ℕ :=
  match fs with
  | some (foldLine, restFolds) =>
    if foldLine.startRow < row then
      let row2 := foldLine.endRow + 1
      if lastRow < row2 then [row2]
      else row2 :: visibleRowsLoop lastRow (row2 + 1)
        (getNextFoldLine (foldLine.endRow + 1) restFolds)
    else
      if lastRow < row then [row]
      else row :: visibleRowsLoop lastRow (row + 1) (some (foldLine, restFolds))
  | none =>
    if lastRow < row then [row]
    else row :: visibleRowsLoop lastRow (row + 1) none
termination_by (foldStateSize fs, lastRow + 1 - row)
decreasing_by
  · apply Prod.Lex.left
    exact Nat.lt_succ_of_le (foldStateSize_getNextFoldLine_le _ _)
  · apply Prod.Lex.right
    omega
  · apply Prod.Lex.right
    omega

/-- The per-render configuration snapshot (spec §3 LayerConfig). -/
structure LayerConfig where
  firstRow : ℕ
  lastRow : ℕ
  charHeightPx : ℚ
deriving DecidableEq

/-- Model of `_getVisibleRows(config)` (source lines 354-381). -/
def getVisibleRows (es : EditSession) (config : LayerConfig) : List ℕ :=
  visibleRowsLoop config.lastRow config.firstRow
    (getNextFoldLine config.firstRow es.folds)

/-- A session whose document has no terminal lines and no folds. -/
def sessionNoFolds : EditSession :=
  { terminalLines := fun _ => none, plainLines := fun _ => "", folds := [] }

/-- A session whose only fold covers document rows 2 through 4. -/
def sessionFold24 : EditSession :=
  { terminalLines := fun _ => none, plainLines := fun _ => "",
    folds := [{ startRow := 2, endRow := 4 }] }

/-- C2: with no folds, `_getVisibleRows` for `firstRow = 0`,
`lastRow = 5` returns exactly `[0,1,2,3,4,5,6]` (the one-past-`lastRow`
row included); with a single fold covering rows `[2,4]` it returns
exactly `[0,1,2,5,6]` (the fold's start row emitted once before the
jump). -/
theorem c2_getVisibleRows_examples (es es' : EditSession) (c c' : ℚ)
    (hf : es.folds = []) (hf' : es'.folds = [{ startRow := 2, endRow := 4 }]) :
    getVisibleRows es { firstRow := 0, lastRow := 5, charHeightPx := c }
        = [0, 1, 2, 3, 4, 5, 6] ∧
    getVisibleRows es' { firstRow := 0, lastRow := 5, charHeightPx := c' }
        = [0, 1, 2, 5, 6] := by
  constructor
  · simp [getVisibleRows, hf, getNextFoldLine, visibleRowsLoop]
  · simp [getVisibleRows, hf', getNextFoldLine, visibleRowsLoop]

/-- Witness for C2 at two concrete sessions. -/
theorem c2_witness :
    getVisibleRows sessionNoFolds { firstRow := 0, lastRow := 5, charHeightPx := 1 }
        = [0, 1, 2, 3, 4, 5, 6] ∧
    getVisibleRows sessionFold24 { firstRow := 0, lastRow := 5, charHeightPx := 1 }
        = [0, 1, 2, 5, 6] :=
  c2_getVisibleRows_examples sessionNoFolds sessionFold24 1 1 rfl rfl

/-! ## Ordering of the visible-row sequence (C3) -/

/-- Well-formed fold data as the document model maintains it: each fold
is a range (`start ≤ end`) and the folds are disjoint and sorted. -/
def FoldsWellFormed (folds : List FoldLine) : Prop :=
  (∀ f ∈ folds, f.startRow ≤ f.endRow) ∧
    List.Chain' (fun f g => f.endRow < g.startRow) folds

/-- Invariant carried by the resolver's fold cursor: the current fold
(if any) ends no earlier than `row - 1`, and the fold list from the
cursor on is well formed. -/
def loopCursorInv (row : ℕ) : Option (FoldLine × List FoldLine) → Prop
  | none => True
  | some (f, rest) => row ≤ f.endRow + 1 ∧ FoldsWellFormed (f :: rest)

theorem FoldsWellFormed.tail {f : FoldLine} {rest : List FoldLine}
    (h : FoldsWellFormed (f :: rest)) : FoldsWellFormed rest :=
  ⟨fun g hg => h.1 g (List.mem_cons_of_mem f hg), h.2.tail⟩

theorem getNextFoldLine_some (row : ℕ) (folds : List FoldLine)
    (hwf : FoldsWellFormed folds) :
    ∀ f rest, getNextFoldLine row folds = some (f, rest) →
      row ≤ f.endRow ∧ FoldsWellFormed (f :: rest) := by
  induction folds with
  | nil => simp [getNextFoldLine]
  | cons g gs ih =>
    intro f rest h
    simp only [getNextFoldLine] at h
    split at h
    · exact ih (FoldsWellFormed.tail hwf) f rest h
    · rename_i hge
      simp only [Option.some.injEq, Prod.mk.injEq] at h
      obtain ⟨rfl, rfl⟩ := h
      exact ⟨by omega, hwf⟩

theorem getNextFoldLine_inv (row : ℕ) (folds : List FoldLine)
    (hwf : FoldsWellFormed folds) :
    loopCursorInv (row + 1) (getNextFoldLine row folds) := by
  cases heq : getNextFoldLine row folds with
  | none => trivial
  | some p =>
    obtain ⟨f, rest⟩ := p
    obtain ⟨h1, h2⟩ := getNextFoldLine_some row folds hwf f rest heq
    exact ⟨by omega, h2⟩

theorem loopCursorInv_mono {row row' : ℕ} (h : row ≤ row')
    (fs : Option (FoldLine × List FoldLine)) (hinv : loopCursorInv row' fs) :
    loopCursorInv row fs := by
  cases fs with
  | none => trivial
  | some p =>
    obtain ⟨f, rest⟩ := p
    exact ⟨le_trans h hinv.1, hinv.2⟩

theorem visibleRowsLoop_sorted (lastRow : ℕ) :
    ∀ (row : ℕ) (fs : Option (FoldLine × List FoldLine)),
      loopCursorInv row fs →
      (∀ x ∈ visibleRowsLoop lastRow row fs, row ≤ x) ∧
        List.Chain' (· < ·) (visibleRowsLoop lastRow row fs) := by
  intro row fs
  induction row, fs using visibleRowsLoop.induct lastRow with
  | case1 row f rest hstart row2 hlast =>
    intro hinv
    rw [visibleRowsLoop, if_pos hstart, if_pos hlast]
    refine ⟨?_, List.chain'_singleton _⟩
    intro x hx
    rw [List.mem_singleton] at hx
    subst hx
    exact hinv.1
  | case2 row f rest hstart row2 hlast ih =>
    intro hinv
    have hr : row ≤ f.endRow + 1 := hinv.1
    rw [visibleRowsLoop, if_pos hstart, if_neg hlast]
    have hinv2 : loopCursorInv (f.endRow + 1 + 1)
        (getNextFoldLine (f.endRow + 1) rest) :=
      getNextFoldLine_inv (f.endRow + 1) rest (FoldsWellFormed.tail hinv.2)
    obtain ⟨htail_ge, htail_chain⟩ := ih hinv2
    constructor
    · intro x hx
      rcases List.mem_cons.mp hx with h | h
      · omega
      · have := htail_ge x h
        omega
    · rw [List.chain'_cons']
      refine ⟨?_, htail_chain⟩
      intro y hy
      have := htail_ge y (List.mem_of_mem_head? hy)
      omega
  | case3 row f rest hstart hlast =>
    intro _
    rw [visibleRowsLoop, if_neg hstart, if_pos hlast]
    exact ⟨by simp, List.chain'_singleton _⟩
  | case4 row f rest hstart hlast ih =>
    intro hinv
    rw [visibleRowsLoop, if_neg hstart, if_neg hlast]
    have hse : f.startRow ≤ f.endRow := hinv.2.1 f (List.mem_cons_self f rest)
    have hinv2 : loopCursorInv (row + 1) (some (f, rest)) := ⟨by omega, hinv.2⟩
    obtain ⟨htail_ge, htail_chain⟩ := ih hinv2
    constructor
    · intro x hx
      rcases List.mem_cons.mp hx with h | h
      · omega
      · have := htail_ge x h
        omega
    · rw [List.chain'_cons']
      refine ⟨?_, htail_chain⟩
      intro y hy
      have := htail_ge y (List.mem_of_mem_head? hy)
      omega
  | case5 row hlast =>
    intro _
    rw [visibleRowsLoop, if_pos hlast]
    exact ⟨by simp, List.chain'_singleton _⟩
  | case6 row hlast ih =>
    intro _
    rw [visibleRowsLoop, if_neg hlast]
    obtain ⟨htail_ge, htail_chain⟩ := ih trivial
    constructor
    · intro x hx
      rcases List.mem_cons.mp hx with h | h
      · omega
      · have := htail_ge x h
        omega
    · rw [List.chain'_cons']
      refine ⟨?_, htail_chain⟩
      intro y hy
      have := htail_ge y (List.mem_of_mem_head? hy)
      omega

theorem visibleRowsLoop_none_length (lastRow : ℕ) :
    ∀ (row : ℕ) (fs : Option (FoldLine × List FoldLine)), fs = none →
      row ≤ lastRow + 1 → (visibleRowsLoop lastRow row fs).length = lastRow + 2 - row := by
  intro row fs
  induction row, fs using visibleRowsLoop.induct lastRow with
  | case1 row f rest hstart row2 hlast => intro h; exact absurd h (by simp)
  | case2 row f rest hstart row2 hlast ih => intro h; exact absurd h (by simp)
  | case3 row f rest hstart hlast => intro h; exact absurd h (by simp)
  | case4 row f rest hstart hlast ih => intro h; exact absurd h (by simp)
  | case5 row hlast =>
    intro _ hle
    rw [visibleRowsLoop, if_pos hlast]
    simp only [List.length_singleton]
    omega
  | case6 row hlast ih =>
    intro _ _
    rw [visibleRowsLoop, if_neg hlast]
    simp only [List.length_cons]
    rw [ih rfl (by omega)]
    omega

/-- C3 counterexample: with the single well-formed fold `[2,4]`,
`firstRow = 0` and `lastRow = 5`, the sequence returned by
`_getVisibleRows` has length 5, falsifying the claimed lower bound
`length ≥ lastRow - firstRow + 1 = 6`. -/
theorem c3_counterexample :
    ¬ (5 - 0 + 1 ≤ (getVisibleRows sessionFold24
        { firstRow := 0, lastRow := 5, charHeightPx := 1 }).length) := by
  have h : getVisibleRows sessionFold24
      { firstRow := 0, lastRow := 5, charHeightPx := 1 } = [0, 1, 2, 5, 6] := by
    simp [getVisibleRows, sessionFold24, getNextFoldLine, visibleRowsLoop]
  rw [h]
  simp

/-- C3 (amended): for every config with `firstRow ≤ lastRow` and every
well-formed fold lookup, `_getVisibleRows` returns a strictly
increasing sequence of document-row indices; when the lookup reports no
folds its length is `lastRow - firstRow + 2` (hence at least
`lastRow - firstRow + 1`), but folds can make the sequence shorter than
`lastRow - firstRow + 1`. -/
theorem c3_getVisibleRows_ordered (es : EditSession) (config : LayerConfig)
    (hwf : FoldsWellFormed es.folds) (hfl : config.firstRow ≤ config.lastRow) :
    List.Chain' (· < ·) (getVisibleRows es config) ∧
    (es.folds = [] →
      (getVisibleRows es config).length = config.lastRow - config.firstRow + 2) := by
  constructor
  · refine (visibleRowsLoop_sorted config.lastRow config.firstRow _ ?_).2
    exact loopCursorInv_mono (Nat.le_succ _) _
      (getNextFoldLine_inv config.firstRow es.folds hwf)
  · intro h
    unfold getVisibleRows
    rw [h]
    simp only [getNextFoldLine]
    rw [visibleRowsLoop_none_length config.lastRow config.firstRow none rfl (by omega)]
    omega

/-- Witness for C3 (amended) at the fold `[2,4]` example and at a
no-fold session. -/
theorem c3_witness :
    List.Chain' (· < ·) (getVisibleRows sessionFold24
        { firstRow := 0, lastRow := 5, charHeightPx := 1 }) ∧
    (getVisibleRows sessionNoFolds
        { firstRow := 0, lastRow := 5, charHeightPx := 1 }).length = 5 - 0 + 2 :=
  ⟨(c3_getVisibleRows_ordered sessionFold24
      { firstRow := 0, lastRow := 5, charHeightPx := 1 }
      (by simp [sessionFold24, FoldsWellFormed]) (by norm_num)).1,
   (c3_getVisibleRows_ordered sessionNoFolds
      { firstRow := 0, lastRow := 5, charHeightPx := 1 }
      (by simp [sessionNoFolds, FoldsWellFormed]) (by norm_num)).2 rfl⟩

/-! ## Grid compositor -/

/-- The external ligature-marker collaborator (spec §6):
`markLigaturesCharCellGridRow(grid, row, text)` returns the grid with
ligature hints applied to one row; its behaviour is abstract at this
layer. -/
def LigatureMarker : Type := CharCellGrid → ℕ → String → CharCellGrid

/-- Model of `_highlightLinkID(grid, canvasRow, startX, endX, linkID)` (source
lines 344-352): for each column in `[startX, endX)`, if the cell's link
identifier equals `linkID`, OR the hyperlink-highlight bit into its
style. -/
def highlightLinkID (grid : CharCellGrid) (canvasRow startX endX linkID : ℕ) :
    CharCellGrid :=
  (List.range' startX (endX - startX)).foldl
    (fun g i =>
      if g.getLinkID i canvasRow = linkID then
        g.setStyle i canvasRow (g.getStyle i canvasRow ||| STYLE_MASK_HYPERLINK_HIGHLIGHT)
      else g)
    grid

/-- The body of `_writeLinesToGrid`'s row loop (source lines 308-335):
paste the terminal line (if present), apply hover highlighting, fill
the trailing columns with the default background, run the ligature
marker; or clear the whole row when the line is absent. -/
def writeLineToGridRow (session : EditSession) (hoveredURL : Option String)
    (marker : Option LigatureMarker) (grid : CharCellGrid) (docRow canvasRow : ℕ) :
    CharCellGrid :=
  match session.getTerminalLine docRow with
  | some terminalLine =>
    let grid1 := grid.pasteGrid terminalLine 0 canvasRow
    let grid2 :=
      match hoveredURL with
      | some url =>
        let linkID := terminalLine.getLinkIDByURL url
        if linkID ≠ 0 then highlightLinkID grid1 canvasRow 0 terminalLine.width linkID
        else grid1
      | none => grid1
    let grid3 :=
      if terminalLine.width < grid2.width then
        (List.range' terminalLine.width (grid2.width - terminalLine.width)).foldl
          (fun g i => (g.clearCell i canvasRow).setBgClutIndex i canvasRow PALETTE_BG_INDEX)
          grid2
      else grid2
    match marker with
    | some m => m grid3 canvasRow (session.getLine docRow)
    | none => grid3
  | none =>
    (List.range' 0 grid.width).foldl (fun g i => g.clearCell i canvasRow) grid

/-- The row loop of `_writeLinesToGrid` (source lines 306-342): paint
each resolved document row into consecutive canvas rows, stopping after
the row whose increment reaches the grid height. -/
def writeLinesToGridGo (session : EditSession) (hoveredURL : Option String)
    (marker : Option LigatureMarker) (grid : CharCellGrid) (rows : List ℕ)
    (canvasRow : ℕ) : CharCellGrid :=
  match rows with
  | [] => grid
  | docRow :: rest =>
    let grid2 := writeLineToGridRow session hoveredURL marker grid docRow canvasRow
    if grid2.height ≤ canvasRow + 1 then grid2
    else writeLinesToGridGo session hoveredURL marker grid2 rest (canvasRow + 1)

/-- Model of `_writeLinesToGrid(grid, rows, ligatureMarker)`, with the session
and hovered URL read from the layer's fields in the source. -/
def writeLinesToGrid (session : EditSession) (hoveredURL : Option String)
    (grid : CharCellGrid) (rows : List ℕ) (marker : Option LigatureMarker) :
    CharCellGrid :=
  writeLinesToGridGo session hoveredURL marker grid rows 0

/-- The effect of hover highlighting on one cell. -/
def highlightCell (linkID : ℕ) (c : Cell) : Cell :=
  if c.linkID = linkID then { c with style := c.style ||| STYLE_MASK_HYPERLINK_HIGHLIGHT }
  else c

/-- The cell left in a trailing column by the compositor's padding fill:
cleared, with the default-background palette slot. -/
def bgFilledCell : Cell := { clearedCell with bgClutIndex := PALETTE_BG_INDEX }

theorem CharCellGrid.setCell_cells (g : CharCellGrid) (x y : ℕ) (c : Cell) (a b : ℕ) :
    (g.setCell x y c).cells a b = if a = x ∧ b = y then c else g.cells a b := rfl

/-- Generic evaluation of a column loop whose step rewrites exactly the
cell `(i, row)` as a function of its previous value. -/
theorem foldl_cellUpdate_cells (row : ℕ) (t : Cell → Cell)
    (step : CharCellGrid → ℕ → CharCellGrid)
    (hstep : ∀ g i x y, (step g i).cells x y
      = if x = i ∧ y = row then t (g.cells x y) else g.cells x y) :
    ∀ (l : List ℕ) (g : CharCellGrid) (x y : ℕ), l.Nodup →
      (l.foldl step g).cells x y
        = if x ∈ l ∧ y = row then t (g.cells x y) else g.cells x y := by
  intro l
  induction l with
  | nil => simp
  | cons a tl ih =>
    intro g x y hnd
    have hnd' := List.nodup_cons.mp hnd
    rw [List.foldl_cons, ih (step g a) x y hnd'.2, hstep]
    by_cases hy : y = row
    · subst hy
      by_cases hxt : x ∈ tl
      · have hxa : x ≠ a := fun h => hnd'.1 (h ▸ hxt)
        simp [hxt, hxa, List.mem_cons]
      · by_cases hxa : x = a
        · subst hxa
          simp [hxt, List.mem_cons]
        · simp [hxt, hxa, List.mem_cons]
    · simp [hy]

/-- Generic dimension preservation for column loops. -/
theorem foldl_cellUpdate_dims (step : CharCellGrid → ℕ → CharCellGrid)
    (hw : ∀ g i, (step g i).width = g.width)
    (hh : ∀ g i, (step g i).height = g.height) :
    ∀ (l : List ℕ) (g : CharCellGrid),
      (l.foldl step g).width = g.width ∧ (l.foldl step g).height = g.height := by
  intro l
  induction l with
  | nil => simp
  | cons a tl ih =>
    intro g
    rw [List.foldl_cons]
    obtain ⟨ihw, ihh⟩ := ih (step g a)
    exact ⟨by rw [ihw, hw], by rw [ihh, hh]⟩

theorem hlStep_cells (canvasRow linkID : ℕ) (g : CharCellGrid) (i x y : ℕ) :
    ((if g.getLinkID i canvasRow = linkID then
        g.setStyle i canvasRow (g.getStyle i canvasRow ||| STYLE_MASK_HYPERLINK_HIGHLIGHT)
      else g) : CharCellGrid).cells x y
      = if x = i ∧ y = canvasRow then highlightCell linkID (g.cells x y)
        else g.cells x y := by
  by_cases hid : g.getLinkID i canvasRow = linkID
  · rw [if_pos hid]
    unfold CharCellGrid.setStyle CharCellGrid.getStyle
    rw [CharCellGrid.setCell_cells]
    by_cases hxy : x = i ∧ y = canvasRow
    · obtain ⟨rfl, rfl⟩ := hxy
      simp only [if_pos (And.intro rfl rfl)]
      unfold highlightCell
      unfold CharCellGrid.getLinkID at hid
      rw [if_pos hid]
    · rw [if_neg hxy, if_neg hxy]
  · rw [if_neg hid]
    by_cases hxy : x = i ∧ y = canvasRow
    · obtain ⟨rfl, rfl⟩ := hxy
      unfold highlightCell
      unfold CharCellGrid.getLinkID at hid
      simp [hid]
    · rw [if_neg hxy]

theorem fillStep_cells (canvasRow : ℕ) (g : CharCellGrid) (i x y : ℕ) :
    ((g.clearCell i canvasRow).setBgClutIndex i canvasRow PALETTE_BG_INDEX).cells x y
      = if x = i ∧ y = canvasRow then bgFilledCell else g.cells x y := by
  unfold CharCellGrid.setBgClutIndex CharCellGrid.clearCell
  rw [CharCellGrid.setCell_cells, CharCellGrid.setCell_cells, CharCellGrid.setCell_cells]
  by_cases hxy : x = i ∧ y = canvasRow
  · rw [if_pos hxy, if_pos hxy, if_pos ⟨rfl, rfl⟩]
    rfl
  · rw [if_neg hxy, if_neg hxy, if_neg hxy]

theorem clearStep_cells (canvasRow : ℕ) (g : CharCellGrid) (i x y : ℕ) :
    (g.clearCell i canvasRow).cells x y
      = if x = i ∧ y = canvasRow then clearedCell else g.cells x y := by
  unfold CharCellGrid.clearCell
  rw [CharCellGrid.setCell_cells]

theorem highlightLinkID_cells (grid : CharCellGrid) (canvasRow startX endX linkID x y : ℕ) :
    (highlightLinkID grid canvasRow startX endX linkID).cells x y
      = if (startX ≤ x ∧ x < startX + (endX - startX)) ∧ y = canvasRow
        then highlightCell linkID (grid.cells x y) else grid.cells x y := by
  unfold highlightLinkID
  rw [foldl_cellUpdate_cells canvasRow (highlightCell linkID) _
    (hlStep_cells canvasRow linkID) _ grid x y (List.nodup_range' _ _)]
  simp only [List.mem_range'_1]

theorem pasteGrid_cells (g : CharCellGrid) (tl : TerminalLine) (py x y : ℕ) :
    (g.pasteGrid tl 0 py).cells x y
      = if y = py ∧ x < tl.width ∧ x < g.width then tl.cells x else g.cells x y := by
  unfold CharCellGrid.pasteGrid
  simp

theorem fillFold_cells (cr s n : ℕ) (g : CharCellGrid) (x y : ℕ) :
    ((List.range' s n).foldl
        (fun g i => (g.clearCell i cr).setBgClutIndex i cr PALETTE_BG_INDEX) g).cells x y
      = if (s ≤ x ∧ x < s + n) ∧ y = cr then bgFilledCell else g.cells x y := by
  rw [foldl_cellUpdate_cells cr (fun _ => bgFilledCell) _ (fillStep_cells cr) _ g x y
    (List.nodup_range' _ _)]
  simp only [List.mem_range'_1]

theorem clearFold_cells (cr s n : ℕ) (g : CharCellGrid) (x y : ℕ) :
    ((List.range' s n).foldl (fun g i => g.clearCell i cr) g).cells x y
      = if (s ≤ x ∧ x < s + n) ∧ y = cr then clearedCell else g.cells x y := by
  rw [foldl_cellUpdate_cells cr (fun _ => clearedCell) _ (clearStep_cells cr) _ g x y
    (List.nodup_range' _ _)]
  simp only [List.mem_range'_1]

theorem highlightLinkID_dims (g : CharCellGrid) (cr a b linkID : ℕ) :
    (highlightLinkID g cr a b linkID).width = g.width ∧
      (highlightLinkID g cr a b linkID).height = g.height := by
  unfold highlightLinkID
  refine foldl_cellUpdate_dims _ ?_ ?_ _ g
  · intro g i
    by_cases h : g.getLinkID i cr = linkID
    · simp [h, CharCellGrid.setStyle, CharCellGrid.setCell]
    · simp [h]
  · intro g i
    by_cases h : g.getLinkID i cr = linkID
    · simp [h, CharCellGrid.setStyle, CharCellGrid.setCell]
    · simp [h]

theorem fillFold_dims (cr : ℕ) (l : List ℕ) (g : CharCellGrid) :
    ((l.foldl (fun g i => (g.clearCell i cr).setBgClutIndex i cr PALETTE_BG_INDEX)
        g)).width = g.width ∧
      ((l.foldl (fun g i => (g.clearCell i cr).setBgClutIndex i cr PALETTE_BG_INDEX)
        g)).height = g.height :=
  foldl_cellUpdate_dims
    (fun g i => (g.clearCell i cr).setBgClutIndex i cr PALETTE_BG_INDEX)
    (fun _ _ => rfl) (fun _ _ => rfl) l g

theorem clearFold_dims (cr : ℕ) (l : List ℕ) (g : CharCellGrid) :
    ((l.foldl (fun g i => g.clearCell i cr) g)).width = g.width ∧
      ((l.foldl (fun g i => g.clearCell i cr) g)).height = g.height :=
  foldl_cellUpdate_dims (fun g i => g.clearCell i cr)
    (fun _ _ => rfl) (fun _ _ => rfl) l g

theorem writeLineToGridRow_dims (session : EditSession) (url : Option String)
    (g : CharCellGrid) (d cr : ℕ) :
    (writeLineToGridRow session url none g d cr).width = g.width ∧
      (writeLineToGridRow session url none g d cr).height = g.height := by
  rcases h : session.getTerminalLine d with _ | tl
  · simp only [writeLineToGridRow, h]
    exact clearFold_dims cr _ g
  · rcases url with _ | u
    · simp only [writeLineToGridRow, h]
      split
      · exact fillFold_dims cr _ _
      · exact ⟨rfl, rfl⟩
    · simp only [writeLineToGridRow, h]
      split
      · split
        · refine ⟨?_, ?_⟩
          · exact ((fillFold_dims cr _ _).1).trans
              (highlightLinkID_dims (g.pasteGrid tl 0 cr) cr 0 tl.width _).1
          · exact ((fillFold_dims cr _ _).2).trans
              (highlightLinkID_dims (g.pasteGrid tl 0 cr) cr 0 tl.width _).2
        · exact highlightLinkID_dims (g.pasteGrid tl 0 cr) cr 0 tl.width _
      · split
        · exact fillFold_dims cr _ _
        · exact ⟨rfl, rfl⟩

theorem writeLineToGridRow_cells_ne (session : EditSession) (url : Option String)
    (g : CharCellGrid) (d cr x y : ℕ) (hy : y ≠ cr) :
    (writeLineToGridRow session url none g d cr).cells x y = g.cells x y := by
  unfold writeLineToGridRow
  cases h : session.getTerminalLine d with
  | none =>
    rw [clearFold_cells]
    simp [hy]
  | some tl =>
    cases url with
    | none =>
      simp only []
      split
      · rw [fillFold_cells, pasteGrid_cells]
        simp [hy]
      · rw [pasteGrid_cells]
        simp [hy]
    | some u =>
      simp only []
      split
      · split
        · rw [fillFold_cells, highlightLinkID_cells, pasteGrid_cells]
          simp [hy]
        · rw [highlightLinkID_cells, pasteGrid_cells]
          simp [hy]
      · split
        · rw [fillFold_cells, pasteGrid_cells]
          simp [hy]
        · rw [pasteGrid_cells]
          simp [hy]

theorem writeLineToGridRow_trailing (session : EditSession) (url : Option String)
    (g : CharCellGrid) (d cr x : ℕ) (tl : TerminalLine)
    (h : session.getTerminalLine d = some tl)
    (hw : tl.width < g.width) (hx1 : tl.width ≤ x) (hx2 : x < g.width) :
    (writeLineToGridRow session url none g d cr).cells x cr = bgFilledCell := by
  have hpw : (g.pasteGrid tl 0 cr).width = g.width := rfl
  rcases url with _ | u
  · simp only [writeLineToGridRow, h]
    split
    · rw [fillFold_cells, hpw]
      rw [if_pos ⟨⟨hx1, by omega⟩, rfl⟩]
    · rename_i hfill
      exact absurd hw hfill
  · simp only [writeLineToGridRow, h]
    split
    · have hW : (highlightLinkID (g.pasteGrid tl 0 cr) cr 0 tl.width
          (tl.getLinkIDByURL u)).width = g.width :=
        (highlightLinkID_dims (g.pasteGrid tl 0 cr) cr 0 tl.width _).1
      split
      · rw [fillFold_cells, hW]
        rw [if_pos ⟨⟨hx1, by omega⟩, rfl⟩]
      · rename_i hfill
        rw [hW] at hfill
        exact absurd hw hfill
    · split
      · rw [fillFold_cells, hpw]
        rw [if_pos ⟨⟨hx1, by omega⟩, rfl⟩]
      · rename_i hfill
        exact absurd hw hfill

theorem writeLineToGridRow_painted (session : EditSession) (u : String)
    (g : CharCellGrid) (d cr x : ℕ) (tl : TerminalLine) (linkID : ℕ)
    (h : session.getTerminalLine d = some tl)
    (hid : tl.getLinkIDByURL u = linkID) (hnz : linkID ≠ 0)
    (hx1 : x < tl.width) (hx2 : x < g.width) :
    (writeLineToGridRow session (some u) none g d cr).cells x cr
      = highlightCell linkID (tl.cells x) := by
  simp only [writeLineToGridRow, h]
  rw [hid, if_pos hnz]
  have hpaint : (highlightLinkID (g.pasteGrid tl 0 cr) cr 0 tl.width linkID).cells x cr
      = highlightCell linkID (tl.cells x) := by
    rw [highlightLinkID_cells]
    rw [if_pos ⟨⟨Nat.zero_le x, by omega⟩, rfl⟩]
    rw [pasteGrid_cells, if_pos ⟨rfl, hx1, hx2⟩]
  split
  · rw [fillFold_cells]
    rw [if_neg (by omega)]
    exact hpaint
  · exact hpaint

theorem writeLinesToGridGo_dims (session : EditSession) (url : Option String) :
    ∀ (rows : List ℕ) (g : CharCellGrid) (cr : ℕ),
      (writeLinesToGridGo session url none g rows cr).width = g.width ∧
        (writeLinesToGridGo session url none g rows cr).height = g.height := by
  intro rows
  induction rows with
  | nil => intro g cr; exact ⟨rfl, rfl⟩
  | cons d rest ih =>
    intro g cr
    obtain ⟨bw, bh⟩ := writeLineToGridRow_dims session url g d cr
    simp only [writeLinesToGridGo]
    split
    · exact ⟨bw, bh⟩
    · obtain ⟨iw, ihh⟩ := ih (writeLineToGridRow session url none g d cr) (cr + 1)
      exact ⟨iw.trans bw, ihh.trans bh⟩

theorem writeLinesToGridGo_cells_lt (session : EditSession) (url : Option String) :
    ∀ (rows : List ℕ) (g : CharCellGrid) (cr x y : ℕ), y < cr →
      (writeLinesToGridGo session url none g rows cr).cells x y = g.cells x y := by
  intro rows
  induction rows with
  | nil => intro g cr x y _; rfl
  | cons d rest ih =>
    intro g cr x y hy
    simp only [writeLinesToGridGo]
    split
    · exact writeLineToGridRow_cells_ne session url g d cr x y (by omega)
    · rw [ih _ (cr + 1) x y (by omega)]
      exact writeLineToGridRow_cells_ne session url g d cr x y (by omega)

theorem writeLinesToGridGo_trailing (session : EditSession) (url : Option String) :
    ∀ (rows : List ℕ) (g : CharCellGrid) (cr k x : ℕ) (hk : k < rows.length)
      (tl : TerminalLine),
      cr + k < g.height →
      session.getTerminalLine (rows.get ⟨k, hk⟩) = some tl →
      tl.width < g.width → tl.width ≤ x → x < g.width →
      (writeLinesToGridGo session url none g rows cr).cells x (cr + k)
        = bgFilledCell := by
  intro rows
  induction rows with
  | nil =>
    intro g cr k x hk
    exact absurd hk (by simp)
  | cons d rest ih =>
    intro g cr k x hk tl hh hline hw hx1 hx2
    obtain ⟨bw, bh⟩ := writeLineToGridRow_dims session url g d cr
    simp only [writeLinesToGridGo]
    cases k with
    | zero =>
      have hcell : (writeLineToGridRow session url none g d cr).cells x (cr + 0)
          = bgFilledCell := by
        rw [Nat.add_zero]
        exact writeLineToGridRow_trailing session url g d cr x tl hline hw hx1 hx2
      split
      · exact hcell
      · rw [writeLinesToGridGo_cells_lt session url rest _ (cr + 1) x (cr + 0) (by omega)]
        exact hcell
    | succ j =>
      have hrec : ¬ ((writeLineToGridRow session url none g d cr).height ≤ cr + 1) := by
        rw [bh]
        omega
      rw [if_neg hrec]
      have heq : cr + (j + 1) = (cr + 1) + j := by omega
      rw [heq]
      exact ih (writeLineToGridRow session url none g d cr) (cr + 1) j x
        (Nat.lt_of_succ_lt_succ hk) tl (by rw [bh]; omega) hline
        (by rw [bw]; exact hw) hx1 (by rw [bw]; exact hx2)

theorem writeLinesToGridGo_painted (session : EditSession) (u : String) :
    ∀ (rows : List ℕ) (g : CharCellGrid) (cr k x : ℕ) (hk : k < rows.length)
      (tl : TerminalLine) (linkID : ℕ),
      cr + k < g.height →
      session.getTerminalLine (rows.get ⟨k, hk⟩) = some tl →
      tl.getLinkIDByURL u = linkID → linkID ≠ 0 →
      x < tl.width → x < g.width →
      (writeLinesToGridGo session (some u) none g rows cr).cells x (cr + k)
        = highlightCell linkID (tl.cells x) := by
  intro rows
  induction rows with
  | nil =>
    intro g cr k x hk
    exact absurd hk (by simp)
  | cons d rest ih =>
    intro g cr k x hk tl linkID hh hline hid hnz hx1 hx2
    obtain ⟨bw, bh⟩ := writeLineToGridRow_dims session (some u) g d cr
    simp only [writeLinesToGridGo]
    cases k with
    | zero =>
      have hcell : (writeLineToGridRow session (some u) none g d cr).cells x (cr + 0)
          = highlightCell linkID (tl.cells x) := by
        rw [Nat.add_zero]
        exact writeLineToGridRow_painted session u g d cr x tl linkID hline hid hnz hx1 hx2
      split
      · exact hcell
      · rw [writeLinesToGridGo_cells_lt session (some u) rest _ (cr + 1) x (cr + 0)
          (by omega)]
        exact hcell
    | succ j =>
      have hrec : ¬ ((writeLineToGridRow session (some u) none g d cr).height ≤ cr + 1) := by
        rw [bh]
        omega
      rw [if_neg hrec]
      have heq : cr + (j + 1) = (cr + 1) + j := by omega
      rw [heq]
      exact ih (writeLineToGridRow session (some u) none g d cr) (cr + 1) j x
        (Nat.lt_of_succ_lt_succ hk) tl linkID (by rw [bh]; omega) hline hid hnz
        hx1 (by rw [bw]; exact hx2)

/-- C4: after `_writeLinesToGrid` (with no ligature marker), for every
painted canvas row whose terminal line is present and narrower than the
grid, every destination column from the line's width up to the grid
width holds the cleared cell whose background palette index is
`PALETTE_BG_INDEX`, regardless of the grid's previous contents and of
the hovered URL. -/
theorem c4_writeLinesToGrid_trailing_fill (session : EditSession)
    (url : Option String) (grid : CharCellGrid) (rows : List ℕ) (k x : ℕ)
    (tl : TerminalLine) (hk : k < rows.length) (hh : k < grid.height)
    (hline : session.getTerminalLine (rows.get ⟨k, hk⟩) = some tl)
    (hw : tl.width < grid.width) (hx1 : tl.width ≤ x) (hx2 : x < grid.width) :
    (writeLinesToGrid session url grid rows none).cells x k
      = { clearedCell with bgClutIndex := PALETTE_BG_INDEX } := by
  have h := writeLinesToGridGo_trailing session url rows grid 0 k x hk tl
    (by omega) hline hw hx1 hx2
  rw [Nat.zero_add] at h
  exact h

/-- A one-cell terminal line with no links, used as a concrete input. -/
def lineNarrow : TerminalLine :=
  { width := 1
    cells := fun _ =>
      { codePoint := 65, fgClutIndex := 1, bgClutIndex := 2, style := 3, linkID := 0 }
    linkIDOfURL := fun _ => 0
    linkURLOfID := fun _ => "" }

/-- A session whose row 0 is `lineNarrow`. -/
def sessionNarrow : EditSession :=
  { terminalLines := fun r => if r = 0 then some lineNarrow else none
    plainLines := fun _ => ""
    folds := [] }

/-- A 3×2 grid holding stale content in every cell. -/
def staleGrid : CharCellGrid :=
  { width := 3
    height := 2
    cells := fun _ _ =>
      { codePoint := 66, fgClutIndex := 9, bgClutIndex := 9, style := 9, linkID := 9 } }

/-- Witness for C4: pasting the 1-wide line into the stale 3-wide grid
leaves column 2 of canvas row 0 cleared with the default-background
slot. -/
theorem c4_witness :
    (writeLinesToGrid sessionNarrow none staleGrid [0] none).cells 2 0
      = { clearedCell with bgClutIndex := PALETTE_BG_INDEX } :=
  c4_writeLinesToGrid_trailing_fill sessionNarrow none staleGrid [0] 0 2 lineNarrow
    (by decide) (by decide) rfl (by decide) (by decide) (by decide)

/-- C5: during `_writeLinesToGrid` (no ligature marker), if the hovered
URL resolves on the painted row's line to a nonzero link identifier,
then on that canvas row every destination cell in columns
`[0, line.width)` whose link identifier equals the resolved identifier
gets the hyperlink-highlight style bit ORed into its style, and cells
whose link identifier differs keep the style pasted from the line. -/
theorem c5_writeLinesToGrid_link_highlight (session : EditSession) (u : String)
    (grid : CharCellGrid) (rows : List ℕ) (k x : ℕ) (tl : TerminalLine)
    (linkID : ℕ) (hk : k < rows.length) (hh : k < grid.height)
    (hline : session.getTerminalLine (rows.get ⟨k, hk⟩) = some tl)
    (hid : tl.getLinkIDByURL u = linkID) (hnz : linkID ≠ 0)
    (hx1 : x < tl.width) (hx2 : x < grid.width) :
    ((writeLinesToGrid session (some u) grid rows none).cells x k).style
      = if (tl.cells x).linkID = linkID
        then (tl.cells x).style ||| STYLE_MASK_HYPERLINK_HIGHLIGHT
        else (tl.cells x).style := by
  have h := writeLinesToGridGo_painted session u rows grid 0 k x hk tl linkID
    (by omega) hline hid hnz hx1 hx2
  rw [Nat.zero_add] at h
  rw [writeLinesToGrid] at *
  rw [h]
  unfold highlightCell
  split
  · rfl
  · rfl

/-- A two-cell terminal line whose first cell carries link 7 for the
URL `"u"` and whose second cell has no link. -/
def lineLinked : TerminalLine :=
  { width := 2
    cells := fun i =>
      if i = 0 then
        { codePoint := 76, fgClutIndex := 0, bgClutIndex := 0, style := 4, linkID := 7 }
      else
        { codePoint := 77, fgClutIndex := 0, bgClutIndex := 0, style := 5, linkID := 0 }
    linkIDOfURL := fun s => if s = "u" then 7 else 0
    linkURLOfID := fun i => if i = 7 then "u" else "" }

/-- A session whose row 0 is `lineLinked`. -/
def sessionLinked : EditSession :=
  { terminalLines := fun r => if r = 0 then some lineLinked else none
    plainLines := fun _ => ""
    folds := [] }

/-- Witness for C5: hovering `"u"` highlights the linked cell (0,0) and
leaves the unlinked cell (1,0) with its pasted style. -/
theorem c5_witness :
    ((writeLinesToGrid sessionLinked (some "u") staleGrid [0] none).cells 0 0).style
        = 4 ||| STYLE_MASK_HYPERLINK_HIGHLIGHT ∧
      ((writeLinesToGrid sessionLinked (some "u") staleGrid [0] none).cells 1 0).style
        = 5 := by
  constructor
  · have h := c5_writeLinesToGrid_link_highlight sessionLinked "u" staleGrid [0] 0 0
      lineLinked 7 (by decide) (by decide) rfl rfl (by decide) (by decide) (by decide)
    rw [h]
    rfl
  · have h := c5_writeLinesToGrid_link_highlight sessionLinked "u" staleGrid [0] 0 1
      lineLinked 7 (by decide) (by decide) rfl rfl (by decide) (by decide) (by decide)
    rw [h]
    rfl

/-! ## Layer state and the render-surface manager -/

/-- The viewport size passed on each render (spec §3). -/
structure ViewPortSize where
  widthPx : ℚ
  heightPx : ℚ
deriving DecidableEq

/-- A document position for mouse-hover queries. -/
structure Position where
  row : ℕ
  column : ℕ
deriving DecidableEq

/-- The backing render surface (`WebGLCharRenderCanvas`): the options the
source constructs it with, its cell grid, and an identity tag `id` so
that "the same surface object" is expressible (a fresh `id` is assigned
at each construction). -/
structure WebGLCharRenderCanvas where
  id : ℕ
  grid : CharCellGrid
  palette : List ℕ
  cursorStyle : ℕ
  widthPx : ℚ
  heightPx : ℚ
  usableWidthPx : ℚ
  usableHeightPx : ℚ
  fontSizePx : ℚ
  styleWidthCssPx : ℚ
  styleHeightCssPx : ℚ
  transparentBackground : Bool

/-- The mutable state of a `CanvasTextLayer` instance.  The fields
mirror the class fields of the source; `nextSurfaceId`, `allocCount`,
`renderCount` and `rerenderCount` are observation instrumentation (the
spec's §8 allocation counter and render passes), and `backendCellGrid`
keeps abstract how the external rendering backend sizes the cell grid
it creates for given device-pixel dimensions. -/
structure LayerState where
  charRenderCanvas : Option WebGLCharRenderCanvas
  canvasWidthCssPx : ℚ
  canvasHeightCssPx : ℚ
  currentCanvasRawWidthPx : ℚ
  clipWidthCssPx : ℚ
  clipHeightCssPx : ℚ
  session : EditSession
  palette : List ℕ
  fontFamily : String
  fontSizePx : ℚ
  devicePixelRatio : ℚ
  cursorStyle : ℕ
  ligatureMarker : Option LigatureMarker
  transparentBackground : Bool
  hoveredURL : Option String
  lastConfig : Option LayerConfig
  lastViewPortSize : Option ViewPortSize
  backendCellGrid : ℚ → ℚ → CharCellGrid
  nextSurfaceId : ℕ
  allocCount : ℕ
  renderCount : ℕ
  rerenderCount : ℕ

/-- The constant `PROVISION_HEIGHT_FACTOR` (source line 16). -/
def PROVISION_HEIGHT_FACTOR : ℚ := 3/2

/-- The local `rawCanvasHeightPx = Math.ceil(numOfVisibleRows * config.charHeightPx)`
(source line 209). -/
def rawCanvasHeightPx (config : LayerConfig) (numOfVisibleRows : ℕ) : ℚ :=
  ((⌈(numOfVisibleRows : ℚ) * config.charHeightPx⌉ : ℤ) : ℚ)

/-- The local `provisionCanvasHeight = Math.ceil((Math.round(numOfVisibleRows * 1.5) + 1)
* config.charHeightPx)` (source lines 222-223). -/
def provisionCanvasHeight (config : LayerConfig) (numOfVisibleRows : ℕ) : ℚ :=
  ((⌈((jsRound ((numOfVisibleRows : ℚ) * PROVISION_HEIGHT_FACTOR) + 1 : ℤ) : ℚ)
      * config.charHeightPx⌉ : ℤ) : ℚ)

/-- Model of `_setupClipping(rawWidthPx, rawHeightPx)` (source lines 269-272). -/
def setupClipping (s : LayerState) (rawWidthPx rawHeightPx : ℚ) : LayerState :=
  { s with clipWidthCssPx := rawWidthPx, clipHeightCssPx := rawHeightPx }

/-- Model of `_deleteCanvasElement()` (source lines 274-283): no-op when no
canvas exists, else detach/dispose and clear the field. -/
def deleteCanvasElement (s : LayerState) : LayerState :=
  match s.charRenderCanvas with
  | none => s
  | some _ => { s with charRenderCanvas := none }

/-- Model of `_createCanvas(rawWidthPx, rawHeightPx)` (source lines 231-267):
records the raw CSS sizes, builds a fresh surface from the current
settings and the device-pixel-ratio pairs, and attaches it. -/
def createCanvas (s : LayerState) (rawWidthPx rawHeightPx : ℚ) : LayerState :=
  let widthPxPair := computeDevicePixelRatioPair s.devicePixelRatio rawWidthPx
  let heightPxPair := computeDevicePixelRatioPair s.devicePixelRatio rawHeightPx
  let surface : WebGLCharRenderCanvas :=
    { id := s.nextSurfaceId
      grid := s.backendCellGrid widthPxPair.renderLength heightPxPair.renderLength
      palette := s.palette
      cursorStyle := s.cursorStyle
      widthPx := widthPxPair.renderLength
      heightPx := heightPxPair.renderLength
      usableWidthPx := rawWidthPx * s.devicePixelRatio
      usableHeightPx := rawHeightPx * s.devicePixelRatio
      fontSizePx := s.fontSizePx * s.devicePixelRatio
      styleWidthCssPx := widthPxPair.screenLength
      styleHeightCssPx := heightPxPair.screenLength
      transparentBackground := s.transparentBackground }
  { s with
      canvasWidthCssPx := rawWidthPx
      canvasHeightCssPx := rawHeightPx
      charRenderCanvas := some surface
      nextSurfaceId := s.nextSurfaceId + 1
      allocCount := s.allocCount + 1 }

/-- The allocation tail of `_setUpRenderCanvas` (source lines 221-228):
over-provision the height, never shrink the raw width, create the
canvas and clip to the exact required height. -/
def setUpRenderCanvasAlloc (s : LayerState) (config : LayerConfig)
    (rawCanvasWidthPx rawH : ℚ) (numOfVisibleRows : ℕ) : LayerState :=
  let provision := provisionCanvasHeight config numOfVisibleRows
  let allocRawCanvasWidthPx := max rawCanvasWidthPx s.currentCanvasRawWidthPx
  let s1 := { s with currentCanvasRawWidthPx := allocRawCanvasWidthPx }
  let s2 := createCanvas s1 allocRawCanvasWidthPx provision
  setupClipping s2 allocRawCanvasWidthPx rawH

/-- Model of `_setUpRenderCanvas(config, viewPortSize, numOfVisibleRows)` (source
lines 207-229). -/
def setUpRenderCanvas (s : LayerState) (config : LayerConfig)
    (viewPortSize : ViewPortSize) (numOfVisibleRows : ℕ) : LayerState :=
  let rawCanvasWidthPx := viewPortSize.widthPx
  let rawH := rawCanvasHeightPx config numOfVisibleRows
  match s.charRenderCanvas with
  | some _ =>
    let s1 := setupClipping s s.currentCanvasRawWidthPx rawH
    if rawCanvasWidthPx ≤ s1.canvasWidthCssPx ∧ rawH ≤ s1.canvasHeightCssPx then s1
    else setUpRenderCanvasAlloc (deleteCanvasElement s1) config rawCanvasWidthPx rawH
      numOfVisibleRows
  | none => setUpRenderCanvasAlloc s config rawCanvasWidthPx rawH numOfVisibleRows

/-- Model of `update(config, viewPortSize)` (source lines 196-205): cache the
arguments, resolve the visible rows, ensure the canvas, composite the
rows into its grid and render. -/
def update (s : LayerState) (config : LayerConfig) (viewPortSize : ViewPortSize) :
    LayerState :=
  let s1 := { s with lastConfig := some config, lastViewPortSize := some viewPortSize }
  let visibleRows := getVisibleRows s1.session config
  let s2 := setUpRenderCanvas s1 config viewPortSize visibleRows.length
  match s2.charRenderCanvas with
  | some surface =>
    let grid2 := writeLinesToGrid s2.session s2.hoveredURL surface.grid visibleRows
      s2.ligatureMarker
    { s2 with
        charRenderCanvas := some { surface with grid := grid2 }
        renderCount := s2.renderCount + 1 }
  | none => s2

/-- Model of `updateRows(config, viewPortSize, firstRow, lastRow)` (source lines
181-183): delegates to `update`, dropping the row arguments. -/
def updateRows (s : LayerState) (config : LayerConfig) (viewPortSize : ViewPortSize)
    (firstRow lastRow : ℕ) : LayerState :=
  update s config viewPortSize

/-- Model of `rerender()` (source lines 103-108), instrumented with a call
counter; a call with no cached config/viewport is the no-op guard. -/
def rerender (s : LayerState) : LayerState :=
  let s1 := { s with rerenderCount := s.rerenderCount + 1 }
  match s1.lastConfig, s1.lastViewPortSize with
  | some config, some viewPortSize => update s1 config viewPortSize
  | _, _ => s1

/-- Model of `reduceMemory()` (source lines 99-101). -/
def reduceMemory (s : LayerState) : LayerState := deleteCanvasElement s

/-- Model of `setPalette(palette)` (source lines 110-117). -/
def setPalette (s : LayerState) (palette : List ℕ) : LayerState :=
  let s1 := { s with palette := palette }
  match s1.charRenderCanvas with
  | none => s1
  | some surface => { s1 with charRenderCanvas := some { surface with palette := palette } }

/-- Model of `setFontFamily(fontFamily)` (source lines 119-122). -/
def setFontFamily (s : LayerState) (fontFamily : String) : LayerState :=
  deleteCanvasElement { s with fontFamily := fontFamily }

/-- Model of `setFontSizePx(fontSizePx)` (source lines 124-127). -/
def setFontSizePx (s : LayerState) (fontSizePx : ℚ) : LayerState :=
  deleteCanvasElement { s with fontSizePx := fontSizePx }

/-- Model of `setDevicePixelRatio(devicePixelRatio)` (source lines 129-132). -/
def setDevicePixelRatio (s : LayerState) (devicePixelRatio : ℚ) : LayerState :=
  deleteCanvasElement { s with devicePixelRatio := devicePixelRatio }

/-- Model of `setLigatureMarker(marker)` (source lines 134-137). -/
def setLigatureMarker (s : LayerState) (marker : Option LigatureMarker) : LayerState :=
  deleteCanvasElement { s with ligatureMarker := marker }

/-- Model of `setCursorStyle(cursorStyle)` (source lines 139-145): mutate the
field, and when a surface is live push the style to it and render. -/
def setCursorStyle (s : LayerState) (cursorStyle : ℕ) : LayerState :=
  let s1 := { s with cursorStyle := cursorStyle }
  match s1.charRenderCanvas with
  | none => s1
  | some surface =>
    { s1 with
        charRenderCanvas := some { surface with cursorStyle := cursorStyle }
        renderCount := s1.renderCount + 1 }

/-- Model of `setTransparentBackground(transparentBackground)` (source lines
147-150). -/
def setTransparentBackground (s : LayerState) (t : Bool) : LayerState :=
  deleteCanvasElement { s with transparentBackground := t }

/-- Model of `mouseOver(pos)` (source lines 383-403).  The source dereferences
`line.width` without a null check, so a non-null position on a missing
document row raises a `TypeError`; the model returns `Except.error`
there. -/
def mouseOver (s : LayerState) (pos : Option Position) : Except String LayerState :=
  let previousURL := s.hoveredURL
  match pos with
  | none =>
    let s1 := { s with hoveredURL := none }
    Except.ok (if previousURL ≠ s1.hoveredURL then rerender s1 else s1)
  | some p =>
    match s.session.getTerminalLine p.row with
    | none => Except.error "TypeError: line is null"
    | some line =>
      let linkID := if p.column < line.width then line.getLinkID p.column 0 else 0
      let s1 := { s with
        hoveredURL := if linkID = 0 then none else some (line.getLinkURLByID linkID) }
      Except.ok (if previousURL ≠ s1.hoveredURL then rerender s1 else s1)

theorem setUpRenderCanvas_reuse (s : LayerState) (config : LayerConfig)
    (vp : ViewPortSize) (n : ℕ) (surf : WebGLCharRenderCanvas)
    (h : s.charRenderCanvas = some surf)
    (hw : vp.widthPx ≤ s.canvasWidthCssPx)
    (hh : rawCanvasHeightPx config n ≤ s.canvasHeightCssPx) :
    setUpRenderCanvas s config vp n
      = setupClipping s s.currentCanvasRawWidthPx (rawCanvasHeightPx config n) := by
  simp only [setUpRenderCanvas, h, setupClipping]
  rw [if_pos ⟨hw, hh⟩]

theorem update_reuse_spec (s : LayerState) (config : LayerConfig) (vp : ViewPortSize)
    (surf : WebGLCharRenderCanvas) (h : s.charRenderCanvas = some surf)
    (hw : vp.widthPx ≤ s.canvasWidthCssPx)
    (hh : rawCanvasHeightPx config (getVisibleRows s.session config).length
      ≤ s.canvasHeightCssPx) :
    (update s config vp).allocCount = s.allocCount ∧
    (update s config vp).charRenderCanvas.map WebGLCharRenderCanvas.id = some surf.id ∧
    (update s config vp).clipWidthCssPx = s.currentCanvasRawWidthPx ∧
    (update s config vp).clipHeightCssPx
      = rawCanvasHeightPx config (getVisibleRows s.session config).length := by
  simp only [update]
  rw [setUpRenderCanvas_reuse
    { s with lastConfig := some config, lastViewPortSize := some vp } config vp
    (getVisibleRows s.session config).length surf h hw hh]
  simp only [setupClipping]
  simp [h]

theorem update_alloc_spec (s : LayerState) (config : LayerConfig) (vp : ViewPortSize)
    (halloc : s.charRenderCanvas = none ∨ s.canvasWidthCssPx < vp.widthPx ∨
      s.canvasHeightCssPx
        < rawCanvasHeightPx config (getVisibleRows s.session config).length) :
    (update s config vp).canvasHeightCssPx
        = provisionCanvasHeight config (getVisibleRows s.session config).length ∧
    (update s config vp).canvasWidthCssPx = max vp.widthPx s.currentCanvasRawWidthPx ∧
    (update s config vp).currentCanvasRawWidthPx
        = max vp.widthPx s.currentCanvasRawWidthPx ∧
    (update s config vp).allocCount = s.allocCount + 1 ∧
    (update s config vp).charRenderCanvas.map WebGLCharRenderCanvas.id
        = some s.nextSurfaceId ∧
    (update s config vp).clipWidthCssPx = max vp.widthPx s.currentCanvasRawWidthPx ∧
    (update s config vp).clipHeightCssPx
        = rawCanvasHeightPx config (getVisibleRows s.session config).length := by
  rcases hc : s.charRenderCanvas with _ | surf
  · simp only [update, setUpRenderCanvas, setUpRenderCanvasAlloc, deleteCanvasElement,
      createCanvas, setupClipping, hc]
    simp
  · have hcond : ¬ (vp.widthPx ≤ s.canvasWidthCssPx ∧
        rawCanvasHeightPx config (getVisibleRows s.session config).length
          ≤ s.canvasHeightCssPx) := by
      rcases halloc with h1 | h1 | h1
      · rw [hc] at h1
        exact absurd h1 (by simp)
      · intro hand
        exact absurd hand.1 (not_le.mpr h1)
      · intro hand
        exact absurd hand.2 (not_le.mpr h1)
    simp only [update, setUpRenderCanvas, setupClipping, hc]
    rw [if_neg hcond]
    simp only [setUpRenderCanvasAlloc, deleteCanvasElement, createCanvas, setupClipping]
    simp

theorem update_currentRaw_mono (s : LayerState) (config : LayerConfig)
    (vp : ViewPortSize) :
    s.currentCanvasRawWidthPx ≤ (update s config vp).currentCanvasRawWidthPx := by
  rcases hc : s.charRenderCanvas with _ | surf
  · simp only [update, setUpRenderCanvas, setUpRenderCanvasAlloc, deleteCanvasElement,
      createCanvas, setupClipping, hc]
    exact le_max_right _ _
  · simp only [update, setUpRenderCanvas, setupClipping, hc]
    by_cases hcond : vp.widthPx ≤ s.canvasWidthCssPx ∧
        rawCanvasHeightPx config (getVisibleRows s.session config).length
          ≤ s.canvasHeightCssPx
    · rw [if_pos hcond]
    · rw [if_neg hcond]
      simp only [setUpRenderCanvasAlloc, deleteCanvasElement, createCanvas, setupClipping]
      exact le_max_right _ _

theorem update_currentRaw_mono_list (calls : List (LayerConfig × ViewPortSize)) :
    ∀ s : LayerState,
      s.currentCanvasRawWidthPx
        ≤ (calls.foldl (fun t cv => update t cv.1 cv.2) s).currentCanvasRawWidthPx := by
  induction calls with
  | nil => intro s; exact le_refl _
  | cons cv rest ih =>
    intro s
    rw [List.foldl_cons]
    exact le_trans (update_currentRaw_mono s cv.1 cv.2) (ih (update s cv.1 cv.2))

/-- An empty cell grid. -/
def emptyGrid : CharCellGrid :=
  { width := 0, height := 0, cells := fun _ _ => clearedCell }

/-- A concrete live surface: 800×100 CSS pixels at ratio 1. -/
def baseSurface : WebGLCharRenderCanvas :=
  { id := 0, grid := emptyGrid, palette := [], cursorStyle := 0,
    widthPx := 800, heightPx := 100, usableWidthPx := 800, usableHeightPx := 100,
    fontSizePx := 10, styleWidthCssPx := 800, styleHeightCssPx := 100,
    transparentBackground := false }

/-- A concrete layer state holding `baseSurface`, with an allocated raw
width of 800 CSS pixels. -/
def baseState : LayerState :=
  { charRenderCanvas := some baseSurface
    canvasWidthCssPx := 800
    canvasHeightCssPx := 100
    currentCanvasRawWidthPx := 800
    clipWidthCssPx := 0
    clipHeightCssPx := 0
    session := sessionNoFolds
    palette := []
    fontFamily := "monospace"
    fontSizePx := 10
    devicePixelRatio := 1
    cursorStyle := 0
    ligatureMarker := none
    transparentBackground := false
    hoveredURL := none
    lastConfig := none
    lastViewPortSize := none
    backendCellGrid := fun _ _ => emptyGrid
    nextSurfaceId := 1
    allocCount := 1
    renderCount := 0
    rerenderCount := 0 }

/-- One-row config with a 10-pixel row height. -/
def configC6 : LayerConfig := { firstRow := 0, lastRow := 0, charHeightPx := 10 }

/-- A 600-pixel-wide viewport, narrower than the allocated 800. -/
def viewC6 : ViewPortSize := { widthPx := 600, heightPx := 400 }

/-- C6 counterexample: with the 800-wide allocated surface of
`baseState` and the 600-wide viewport `viewC6`, the reuse hypotheses of
the claim hold and `update` performs no reallocation, but the clip
width is set to 800 (the allocated raw width), not to the claimed
viewport width 600. -/
theorem c6_counterexample :
    baseState.charRenderCanvas = some baseSurface ∧
    viewC6.widthPx ≤ baseState.canvasWidthCssPx ∧
    rawCanvasHeightPx configC6 (getVisibleRows baseState.session configC6).length
      ≤ baseState.canvasHeightCssPx ∧
    (update baseState configC6 viewC6).allocCount = baseState.allocCount ∧
    (update baseState configC6 viewC6).clipWidthCssPx ≠ viewC6.widthPx := by
  have hn : (getVisibleRows baseState.session configC6).length = 2 := by
    simp [getVisibleRows, baseState, sessionNoFolds, configC6, getNextFoldLine,
      visibleRowsLoop]
  have hraw : rawCanvasHeightPx configC6 2 = 20 := by
    norm_num [rawCanvasHeightPx, configC6]
  have hhyp2 : viewC6.widthPx ≤ baseState.canvasWidthCssPx := by
    norm_num [viewC6, baseState]
  have hhyp3 : rawCanvasHeightPx configC6
      (getVisibleRows baseState.session configC6).length
      ≤ baseState.canvasHeightCssPx := by
    rw [hn, hraw]
    norm_num [baseState]
  obtain ⟨h1, _, h3, _⟩ :=
    update_reuse_spec baseState configC6 viewC6 baseSurface rfl hhyp2 hhyp3
  refine ⟨rfl, hhyp2, hhyp3, h1, ?_⟩
  rw [h3]
  norm_num [baseState, viewC6]

/-- C6 (amended): if a render canvas exists and its allocated CSS-pixel
width and height are both at least the required width (the viewport
width) and required height (`ceil(visibleRowCount × rowHeight)`), then
`update` performs no reallocation — the surface object is the same
object afterwards — and sets the clip region's CSS height to the exact
required height; the clip region's CSS width, however, is set to the
currently allocated raw canvas width (`_currentCanvasRawWidthPx`), not
to the viewport width. -/
theorem c6_update_reuse_clip (s : LayerState) (config : LayerConfig)
    (vp : ViewPortSize) (surf : WebGLCharRenderCanvas)
    (h : s.charRenderCanvas = some surf)
    (hw : vp.widthPx ≤ s.canvasWidthCssPx)
    (hh : rawCanvasHeightPx config (getVisibleRows s.session config).length
      ≤ s.canvasHeightCssPx) :
    (update s config vp).allocCount = s.allocCount ∧
    (update s config vp).charRenderCanvas.map WebGLCharRenderCanvas.id
      = some surf.id ∧
    (update s config vp).clipHeightCssPx
      = rawCanvasHeightPx config (getVisibleRows s.session config).length ∧
    (update s config vp).clipWidthCssPx = s.currentCanvasRawWidthPx := by
  obtain ⟨h1, h2, h3, h4⟩ := update_reuse_spec s config vp surf h hw hh
  exact ⟨h1, h2, h4, h3⟩

/-- Witness for C6 (amended) at `baseState`, `configC6`, `viewC6`. -/
theorem c6_witness :
    (update baseState configC6 viewC6).allocCount = baseState.allocCount ∧
    (update baseState configC6 viewC6).charRenderCanvas.map WebGLCharRenderCanvas.id
      = some baseSurface.id ∧
    (update baseState configC6 viewC6).clipHeightCssPx
      = rawCanvasHeightPx configC6 (getVisibleRows baseState.session configC6).length ∧
    (update baseState configC6 viewC6).clipWidthCssPx
      = baseState.currentCanvasRawWidthPx :=
  c6_update_reuse_clip baseState configC6 viewC6 baseSurface rfl
    (by simp [viewC6, baseState]; decide)
    (by simp [getVisibleRows, baseState, sessionNoFolds, configC6, getNextFoldLine,
      visibleRowsLoop, rawCanvasHeightPx]; norm_num)

/-- C7: whenever `update` must allocate (no surface exists, or the
existing one is too small), the new backing surface's raw CSS height is
`ceil((round(visibleRowCount × 1.5) + 1) × rowHeight)` and its raw CSS
width is `max(viewport width, previously allocated raw width)`, a fresh
surface is constructed; and the allocated raw width never decreases,
across one `update` or any sequence of `update` calls. -/
theorem c7_update_allocation_sizing (s : LayerState) (config : LayerConfig)
    (vp : ViewPortSize) :
    ((s.charRenderCanvas = none ∨ s.canvasWidthCssPx < vp.widthPx ∨
        s.canvasHeightCssPx
          < rawCanvasHeightPx config (getVisibleRows s.session config).length) →
      (update s config vp).canvasHeightCssPx
          = provisionCanvasHeight config (getVisibleRows s.session config).length ∧
        (update s config vp).canvasWidthCssPx
          = max vp.widthPx s.currentCanvasRawWidthPx ∧
        (update s config vp).allocCount = s.allocCount + 1 ∧
        (update s config vp).charRenderCanvas.map WebGLCharRenderCanvas.id
          = some s.nextSurfaceId) ∧
    s.currentCanvasRawWidthPx ≤ (update s config vp).currentCanvasRawWidthPx ∧
    ∀ calls : List (LayerConfig × ViewPortSize),
      s.currentCanvasRawWidthPx
        ≤ (calls.foldl (fun t cv => update t cv.1 cv.2) s).currentCanvasRawWidthPx := by
  refine ⟨?_, update_currentRaw_mono s config vp, fun calls =>
    update_currentRaw_mono_list calls s⟩
  intro halloc
  obtain ⟨h1, h2, _, h4, h5, _, _⟩ := update_alloc_spec s config vp halloc
  exact ⟨h1, h2, h4, h5⟩

/-- The state `baseState` with its surface removed. -/
def stateNoCanvas : LayerState := { baseState with charRenderCanvas := none }

/-- Witness for C7 at a state with no surface. -/
theorem c7_witness :
    (update stateNoCanvas configC6 viewC6).canvasHeightCssPx
        = provisionCanvasHeight configC6
            (getVisibleRows stateNoCanvas.session configC6).length ∧
      (update stateNoCanvas configC6 viewC6).canvasWidthCssPx
        = max viewC6.widthPx stateNoCanvas.currentCanvasRawWidthPx ∧
      (update stateNoCanvas configC6 viewC6).allocCount
        = stateNoCanvas.allocCount + 1 ∧
      (update stateNoCanvas configC6 viewC6).charRenderCanvas.map
          WebGLCharRenderCanvas.id
        = some stateNoCanvas.nextSurfaceId :=
  (c7_update_allocation_sizing stateNoCanvas configC6 viewC6).1 (Or.inl rfl)

theorem deleteCanvasElement_canvas (s : LayerState) :
    (deleteCanvasElement s).charRenderCanvas = none := by
  rcases hc : s.charRenderCanvas with _ | surf <;> simp [deleteCanvasElement, hc]

theorem deleteCanvasElement_allocCount (s : LayerState) :
    (deleteCanvasElement s).allocCount = s.allocCount := by
  rcases hc : s.charRenderCanvas with _ | surf <;> simp [deleteCanvasElement, hc]

theorem update_alloc_of_none (s : LayerState) (config : LayerConfig)
    (vp : ViewPortSize) (h : s.charRenderCanvas = none) :
    (update s config vp).allocCount = s.allocCount + 1 := by
  obtain ⟨_, _, _, h4, _, _, _⟩ := update_alloc_spec s config vp (Or.inl h)
  exact h4

/-- C8: the font-family, font-size, device-pixel-ratio, ligature-marker
and transparent-background setters immediately dispose the render
surface (the field becomes absent, and the next `update` performs a
fresh allocation); `setPalette` and `setCursorStyle` keep the existing
surface object in place without disposal, and `setCursorStyle`
additionally triggers an immediate render exactly when a surface is
live. -/
theorem c8_setter_surface_lifecycle (s : LayerState) (ff : String) (fsz dpr : ℚ)
    (lm : Option LigatureMarker) (tb : Bool) (pal : List ℕ) (cs : ℕ)
    (config : LayerConfig) (vp : ViewPortSize) :
    (setFontFamily s ff).charRenderCanvas = none ∧
    (setFontSizePx s fsz).charRenderCanvas = none ∧
    (setDevicePixelRatio s dpr).charRenderCanvas = none ∧
    (setLigatureMarker s lm).charRenderCanvas = none ∧
    (setTransparentBackground s tb).charRenderCanvas = none ∧
    (update (setFontFamily s ff) config vp).allocCount = s.allocCount + 1 ∧
    (update (setFontSizePx s fsz) config vp).allocCount = s.allocCount + 1 ∧
    (update (setDevicePixelRatio s dpr) config vp).allocCount = s.allocCount + 1 ∧
    (update (setLigatureMarker s lm) config vp).allocCount = s.allocCount + 1 ∧
    (update (setTransparentBackground s tb) config vp).allocCount = s.allocCount + 1 ∧
    (setPalette s pal).charRenderCanvas.map WebGLCharRenderCanvas.id
      = s.charRenderCanvas.map WebGLCharRenderCanvas.id ∧
    (setPalette s pal).allocCount = s.allocCount ∧
    (setCursorStyle s cs).charRenderCanvas.map WebGLCharRenderCanvas.id
      = s.charRenderCanvas.map WebGLCharRenderCanvas.id ∧
    (setCursorStyle s cs).allocCount = s.allocCount ∧
    (setCursorStyle s cs).renderCount
      = s.renderCount + (if s.charRenderCanvas.isSome then 1 else 0) := by
  refine ⟨deleteCanvasElement_canvas _, deleteCanvasElement_canvas _,
    deleteCanvasElement_canvas _, deleteCanvasElement_canvas _,
    deleteCanvasElement_canvas _, ?_, ?_, ?_, ?_, ?_, ?_, ?_, ?_, ?_, ?_⟩
  · simp only [setFontFamily]
    rw [update_alloc_of_none _ config vp (deleteCanvasElement_canvas _),
      deleteCanvasElement_allocCount]
  · simp only [setFontSizePx]
    rw [update_alloc_of_none _ config vp (deleteCanvasElement_canvas _),
      deleteCanvasElement_allocCount]
  · simp only [setDevicePixelRatio]
    rw [update_alloc_of_none _ config vp (deleteCanvasElement_canvas _),
      deleteCanvasElement_allocCount]
  · simp only [setLigatureMarker]
    rw [update_alloc_of_none _ config vp (deleteCanvasElement_canvas _),
      deleteCanvasElement_allocCount]
  · simp only [setTransparentBackground]
    rw [update_alloc_of_none _ config vp (deleteCanvasElement_canvas _),
      deleteCanvasElement_allocCount]
  · rcases hc : s.charRenderCanvas with _ | surf <;> simp [setPalette, hc]
  · rcases hc : s.charRenderCanvas with _ | surf <;> simp [setPalette, hc]
  · rcases hc : s.charRenderCanvas with _ | surf <;> simp [setCursorStyle, hc]
  · rcases hc : s.charRenderCanvas with _ | surf <;> simp [setCursorStyle, hc]
  · rcases hc : s.charRenderCanvas with _ | surf <;> simp [setCursorStyle, hc]

theorem update_hover_rerender_invariant (s : LayerState) (config : LayerConfig)
    (vp : ViewPortSize) :
    (update s config vp).hoveredURL = s.hoveredURL ∧
    (update s config vp).rerenderCount = s.rerenderCount := by
  rcases hc : s.charRenderCanvas with _ | surf
  · simp only [update, setUpRenderCanvas, setUpRenderCanvasAlloc, deleteCanvasElement,
      createCanvas, setupClipping, hc]
    refine ⟨?_, ?_⟩ <;> first | rfl | trivial
  · simp only [update, setUpRenderCanvas, setupClipping, hc]
    by_cases hcond : vp.widthPx ≤ s.canvasWidthCssPx ∧
        rawCanvasHeightPx config (getVisibleRows s.session config).length
          ≤ s.canvasHeightCssPx
    · rw [if_pos hcond]
      refine ⟨?_, ?_⟩ <;> first | rfl | trivial
    · rw [if_neg hcond]
      simp only [setUpRenderCanvasAlloc, deleteCanvasElement, createCanvas, setupClipping]
      refine ⟨?_, ?_⟩ <;> first | rfl | trivial

theorem rerender_spec (s : LayerState) :
    (rerender s).rerenderCount = s.rerenderCount + 1 ∧
    (rerender s).hoveredURL = s.hoveredURL := by
  rcases hc : s.lastConfig with _ | config
  · simp only [rerender, hc]
    refine ⟨?_, ?_⟩ <;> first | rfl | trivial
  · rcases hv : s.lastViewPortSize with _ | vp
    · simp only [rerender, hc, hv]
      refine ⟨?_, ?_⟩ <;> first | rfl | trivial
    · simp only [rerender, hc, hv]
      obtain ⟨h1, h2⟩ := update_hover_rerender_invariant
        { s with rerenderCount := s.rerenderCount + 1 } config vp
      exact ⟨h2, h1⟩

theorem mouseOver_none_spec (s : LayerState) :
    mouseOver s none
      = Except.ok (if s.hoveredURL ≠ none then rerender { s with hoveredURL := none }
          else { s with hoveredURL := none }) := by
  simp only [mouseOver]

theorem mouseOver_some_spec (s : LayerState) (p : Position) (line : TerminalLine)
    (hline : s.session.getTerminalLine p.row = some line) (newURL : Option String)
    (hnew : newURL
      = (if (if p.column < line.width then line.getLinkID p.column 0 else 0) = 0
          then none
          else some (line.getLinkURLByID
            (if p.column < line.width then line.getLinkID p.column 0 else 0)))) :
    mouseOver s (some p)
      = Except.ok (if s.hoveredURL ≠ newURL then rerender { s with hoveredURL := newURL }
          else { s with hoveredURL := newURL }) := by
  subst hnew
  simp only [mouseOver, hline]

/-- C9: a null position, a column at or past the line's width, or a zero
link identifier at the cell all resolve the hovered URL to "no link"
(`none`) without an error; and across every successful `mouseOver` call a
rerender is triggered exactly when the newly resolved hovered URL
differs from the previously hovered one. -/
theorem c9_mouseOver_resolution (s : LayerState) (pos : Option Position) :
    (pos = none → ∃ s', mouseOver s pos = Except.ok s' ∧ s'.hoveredURL = none) ∧
    (∀ p line, pos = some p → s.session.getTerminalLine p.row = some line →
      (line.width ≤ p.column ∨ line.getLinkID p.column 0 = 0) →
      ∃ s', mouseOver s pos = Except.ok s' ∧ s'.hoveredURL = none) ∧
    (∀ s', mouseOver s pos = Except.ok s' →
      s'.rerenderCount
        = s.rerenderCount + (if s'.hoveredURL ≠ s.hoveredURL then 1 else 0)) := by
  refine ⟨?_, ?_, ?_⟩
  · rintro rfl
    rw [mouseOver_none_spec]
    refine ⟨_, rfl, ?_⟩
    by_cases hch : s.hoveredURL ≠ (none : Option String)
    · rw [if_pos hch]
      exact (rerender_spec _).2
    · rw [if_neg hch]
  · rintro p line rfl hline hcond
    have hid : (if p.column < line.width then line.getLinkID p.column 0 else 0) = 0 := by
      rcases hcond with h | h
      · rw [if_neg (not_lt.mpr h)]
      · by_cases hlt : p.column < line.width
        · rw [if_pos hlt]
          exact h
        · rw [if_neg hlt]
    rw [mouseOver_some_spec s p line hline none (by rw [hid]; simp)]
    refine ⟨_, rfl, ?_⟩
    by_cases hch : s.hoveredURL ≠ (none : Option String)
    · rw [if_pos hch]
      exact (rerender_spec _).2
    · rw [if_neg hch]
  · intro s' hok
    rcases pos with _ | p
    · rw [mouseOver_none_spec] at hok
      obtain rfl := Except.ok.inj hok
      by_cases hch : s.hoveredURL ≠ (none : Option String)
      · rw [if_pos hch]
        obtain ⟨hr1, hr2⟩ := rerender_spec { s with hoveredURL := none }
        rw [hr1, hr2]
        simp [Ne.symm hch]
      · rw [if_neg hch]
        push_neg at hch
        simp [hch]
    · rcases hline : s.session.getTerminalLine p.row with _ | line
      · simp only [mouseOver, hline] at hok
        exact absurd hok (by simp)
      · obtain ⟨newURL, hnew⟩ :
          ∃ u : Option String, u
            = (if (if p.column < line.width then line.getLinkID p.column 0 else 0) = 0
                then none
                else some (line.getLinkURLByID
                  (if p.column < line.width then line.getLinkID p.column 0 else 0))) :=
          ⟨_, rfl⟩
        rw [mouseOver_some_spec s p line hline newURL hnew] at hok
        obtain rfl := Except.ok.inj hok
        by_cases hch : s.hoveredURL ≠ newURL
        · rw [if_pos hch]
          obtain ⟨hr1, hr2⟩ := rerender_spec { s with hoveredURL := newURL }
          rw [hr1, hr2]
          simp [Ne.symm hch]
        · rw [if_neg hch]
          push_neg at hch
          simp [hch]

/-- A concrete layer state over the linked-line session. -/
def stateLinked : LayerState := { baseState with session := sessionLinked }

/-- Witness for C9: a position past the line's content and a null
position both resolve to "no link" without error. -/
theorem c9_witness :
    (∃ s', mouseOver stateLinked (some { row := 0, column := 5 }) = Except.ok s' ∧
      s'.hoveredURL = none) ∧
    (∃ s', mouseOver stateLinked none = Except.ok s' ∧ s'.hoveredURL = none) :=
  ⟨(c9_mouseOver_resolution stateLinked (some { row := 0, column := 5 })).2.1
      { row := 0, column := 5 } lineLinked rfl rfl (Or.inl (by decide)),
   (c9_mouseOver_resolution stateLinked none).1 rfl⟩

/-- C10: `updateRows` ignores its `firstRow` and `lastRow` arguments and
is the same state transformation as `update`. -/
theorem c10_updateRows_eq_update (s : LayerState) (config : LayerConfig)
    (vp : ViewPortSize) (firstRow lastRow : ℕ) :
    updateRows s config vp firstRow lastRow = update s config vp := rfl
